import Mathlib

/-!
Formal model of `pubcounter.py`: a shallow embedding of the PubMed
count lookup engine (`get_pubmed_count`) and the row-stream driver
(`main`), together with theorems settling the specified properties.

The remote service is modelled as an oracle `Nat → RemoteResult` giving
the outcome of each attempt; side effects (remote calls, sleeps, log
events) are recorded in an explicit trace.
-/

namespace PubCounter

/-- Fault classes reported by the remote service: an HTTP error with a
numeric status code (`urllib.error.HTTPError`), or any other exception
raised during the query. -/
inductive PubFault where
  | http (code : Nat)
  | other
deriving DecidableEq

/-- Outcome of one remote query attempt: a successful count, or a fault. -/
inductive RemoteResult where
  | success (count : Nat)
  | fault (f : PubFault)
deriving DecidableEq

/-- Whether a remote attempt outcome is a fault. -/
def RemoteResult.isFault : RemoteResult → Bool
  | .success _ => false
  | .fault _ => true

/-- Log events emitted by `get_pubmed_count`, mirroring the `logging`
calls in the source (lines 96, 101, 103, 106, 108, 113). -/
inductive LogEvent where
  | warn500 (query : String) (attempt maxRetries : Nat)
  | warn429
  | infoPause (delay attempt maxRetries : Nat)
  | errorHttp (code : Nat) (query : String)
  | errorOther (query : String)
  | terminalError (query : String) (maxRetries : Nat)
deriving DecidableEq

/-- Whether a log event is the terminal failure message
`Failed to query {query} after {max_retries} attempts`. -/
def isTerminal : LogEvent → Bool
  | .terminalError _ _ => true
  | _ => false

/-- Observable trace of one `get_pubmed_count` call: the returned value,
the number of remote calls issued, the sleep durations performed, and
the log events emitted. -/
structure QueryTrace where
  result : Int
  calls : Nat
  sleeps : List Nat
  log : List LogEvent
deriving DecidableEq

/-- The exception-handler chain of one failed attempt (source lines
94-111): the `if e.code == 500` / `if e.code == 429` cascade inside
`except HTTPError`, the blanket `except Exception`, and the trailing
`if attempt < max_retries - 1: time.sleep(retry_delay)`.  Returns the
log events emitted and the sleeps performed for this attempt. -/
def failStep (query : String) (delay : Nat) (f : PubFault) (attempt maxR : Nat) :
    List LogEvent × List Nat :=
  match f with
  | .http code =>
      if code = 500 then
        if attempt < maxR - 1 then
          ([.warn500 query (attempt + 1) maxR], [delay])
        else
          ([.warn500 query (attempt + 1) maxR, .errorHttp code query], [])
      else if code = 429 then
        if attempt < maxR - 1 then
          ([.warn429, .infoPause delay (attempt + 1) maxR], [delay])
        else
          ([.warn429, .errorHttp code query], [])
      else
        ([.errorHttp code query], if attempt < maxR - 1 then [delay] else [])
  | .other =>
      ([.errorOther query], if attempt < maxR - 1 then [delay] else [])

/-- The `for attempt in range(max_retries)` loop of `get_pubmed_count`,
by recursion on the number of remaining iterations (`attempt` is the
current loop index; callers maintain `attempt + remaining = maxR`).
When the loop is exhausted the terminal error is logged and -1
returned (source lines 113-114). -/
def pubmedAttempts (remote : Nat → RemoteResult) (query : String) (maxR delay : Nat) :
    Nat → Nat → QueryTrace
  | _, 0 =>
      { result := -1, calls := 0, sleeps := [], log := [LogEvent.terminalError query maxR] }
  | attempt, remaining + 1 =>
      match remote attempt with
      | .success c => { result := (c : Int), calls := 1, sleeps := [], log := [] }
      | .fault f =>
          let step := failStep query delay f attempt maxR
          let rest := pubmedAttempts remote query maxR delay (attempt + 1) remaining
          { result := rest.result, calls := rest.calls + 1,
            sleeps := step.2 ++ rest.sleeps, log := step.1 ++ rest.log }

/-- The ambient global configuration (`args`) that `get_pubmed_count`
reads at lines 83-84. -/
structure Args where
  max_retries : Nat
  retry_delay : Nat
deriving DecidableEq

/-- Model of `get_pubmed_count(query, max_retries, retry_delay)`: the
parameters are immediately shadowed by the globals `args.max_retries`
and `args.retry_delay` (source lines 83-84), then the attempt loop
runs. -/
def get_pubmed_count (args : Args) (remote : Nat → RemoteResult) (query : String)
    (max_retries retry_delay : Nat) : QueryTrace :=
  let max_retries := args.max_retries
  let retry_delay := args.retry_delay
  pubmedAttempts remote query max_retries retry_delay 0 max_retries

/-! ### The outer `backoff` decorator layer -/

/-- Python exception classes relevant to `get_pubmed_count`: the tuple
of the `backoff` decorator (`IOError, RuntimeError, HTTPError`) plus an
arbitrary other `Exception` subclass. -/
inductive PyExc where
  | httpError (code : Nat)
  | ioError
  | runtimeError
  | otherExc
deriving DecidableEq

/-- Whether an exception is an `HTTPError` (first inner handler,
source line 94). -/
def isHTTPError : PyExc → Bool
  | .httpError _ => true
  | _ => false

/-- Whether an exception is an `Exception` (second inner handler,
source line 107): every modelled class derives `Exception` in Python. -/
def isException : PyExc → Bool := fun _ => true

/-- Whether a fault raised inside the per-attempt `try` block is caught
by the handler chain `except HTTPError` / `except Exception`. -/
def innerHandlerCatches (e : PyExc) : Bool := isHTTPError e || isException e

/-- Whether a fault escaping the per-attempt handlers would be retried
by the `@backoff.on_exception` decorator (source lines 69-71), whose
exception tuple is `(IOError, RuntimeError, HTTPError)`. -/
def backoffTriggers : PyExc → Bool
  | .ioError => true
  | .runtimeError => true
  | .httpError _ => true
  | .otherExc => false

/-- The `max_tries=5` bound of the `backoff` decorator (source line 71). -/
def backoffMaxTries : Nat := 5

/-- Whether a fault raised during a query escapes the inner per-attempt
handlers (and could thus reach the decorator). -/
def escapesInnerHandlers (e : PyExc) : Bool := ! innerHandlerCatches e

/-! ### Helper lemmas for the retry engine -/

lemma isFault_exists (r : RemoteResult) (h : r.isFault = true) : ∃ f, r = .fault f := by
  cases r with
  | success c => simp [RemoteResult.isFault] at h
  | fault f => exact ⟨f, rfl⟩

lemma failStep_sleeps (query : String) (delay : Nat) (f : PubFault) (attempt maxR : Nat) :
    (failStep query delay f attempt maxR).2 = if attempt < maxR - 1 then [delay] else [] := by
  rcases f with code | _ <;> simp only [failStep] <;> split_ifs <;> rfl

lemma failStep_no_terminal (query : String) (delay : Nat) (f : PubFault) (attempt maxR : Nat) :
    ((failStep query delay f attempt maxR).1).filter isTerminal = [] := by
  rcases f with code | _
  · simp only [failStep]
    split_ifs <;> simp [isTerminal, List.filter]
  · simp [failStep, isTerminal, List.filter]

lemma pubmedAttempts_fail_then_succ (remote : Nat → RemoteResult) (query : String)
    (maxR delay c : Nat) :
    ∀ k attempt remaining, attempt + remaining = maxR → k < remaining →
      (∀ i, i < k → (remote (attempt + i)).isFault = true) →
      remote (attempt + k) = .success c →
      (pubmedAttempts remote query maxR delay attempt remaining).result = (c : Int) ∧
      (pubmedAttempts remote query maxR delay attempt remaining).calls = k + 1 ∧
      (pubmedAttempts remote query maxR delay attempt remaining).sleeps =
        List.replicate k delay := by
  intro k
  induction k with
  | zero =>
      intro attempt remaining hsum hlt hfail hsucc
      obtain ⟨r, rfl⟩ : ∃ r, remaining = r + 1 := ⟨remaining - 1, by omega⟩
      have hs : remote attempt = .success c := by simpa using hsucc
      simp [pubmedAttempts, hs]
  | succ k ih =>
      intro attempt remaining hsum hlt hfail hsucc
      obtain ⟨r, rfl⟩ : ∃ r, remaining = r + 1 := ⟨remaining - 1, by omega⟩
      obtain ⟨f, hf⟩ := isFault_exists _ (by simpa using hfail 0 (by omega))
      have hrec := ih (attempt + 1) r (by omega) (by omega)
        (fun i hi => by
          have := hfail (i + 1) (by omega)
          simpa [Nat.add_assoc, Nat.add_comm 1 i] using this)
        (by
          have := hsucc
          rw [show attempt + 1 + k = attempt + (k + 1) by omega]
          exact this)
      have hlast : attempt < maxR - 1 := by omega
      simp only [pubmedAttempts, hf]
      refine ⟨hrec.1, ?_, ?_⟩
      · simp [hrec.2.1]
      · simp [failStep_sleeps, hlast, hrec.2.2, List.replicate_succ]

lemma pubmedAttempts_all_fail (remote : Nat → RemoteResult) (query : String)
    (maxR delay : Nat) :
    ∀ remaining attempt,
      (∀ i, i < remaining → (remote (attempt + i)).isFault = true) →
      (pubmedAttempts remote query maxR delay attempt remaining).result = -1 ∧
      ((pubmedAttempts remote query maxR delay attempt remaining).log).filter isTerminal
        = [LogEvent.terminalError query maxR] := by
  intro remaining
  induction remaining with
  | zero =>
      intro attempt _
      constructor
      · rfl
      · simp [pubmedAttempts, isTerminal, List.filter]
  | succ r ih =>
      intro attempt hfail
      obtain ⟨f, hf⟩ := isFault_exists _ (by simpa using hfail 0 (by omega))
      have hrec := ih (attempt + 1)
        (fun i hi => by
          have := hfail (i + 1) (by omega)
          simpa [Nat.add_assoc, Nat.add_comm 1 i] using this)
      simp only [pubmedAttempts, hf]
      refine ⟨hrec.1, ?_⟩
      rw [List.filter_append, failStep_no_terminal, hrec.2]
      rfl

/-! ### Claim theorems for the retry engine -/

/-- Claim C1: for every key and every effective retry policy with
`max_attempts ≥ 1`, if the remote service fails `k < max_attempts`
times (any fault class) and then succeeds, `get_pubmed_count` issues
exactly `k + 1` remote calls, pauses exactly `k` times for
`delay_seconds`, and returns the count of the successful call. -/
theorem resolve_retry_then_success (args : Args) (remote : Nat → RemoteResult)
    (query : String) (mr rd k c : Nat)
    (hmax : 1 ≤ args.max_retries)
    (hk : k < args.max_retries)
    (hfail : ∀ i, i < k → (remote i).isFault = true)
    (hsucc : remote k = .success c) :
    (get_pubmed_count args remote query mr rd).result = (c : Int) ∧
    (get_pubmed_count args remote query mr rd).calls = k + 1 ∧
    (get_pubmed_count args remote query mr rd).sleeps =
      List.replicate k args.retry_delay := by
  have h := pubmedAttempts_fail_then_succ remote query args.max_retries args.retry_delay
    c k 0 args.max_retries (by omega) hk (by simpa using hfail) (by simpa using hsucc)
  simpa [get_pubmed_count] using h

/-- Witness for C1: two HTTP-500 failures then success with count 7,
under policy `max_retries = 3, retry_delay = 10`: three calls, two
pauses of 10 seconds, result 7. -/
theorem resolve_retry_then_success_witness :
    (1 ≤ (Args.mk 3 10).max_retries ∧ 2 < (Args.mk 3 10).max_retries ∧
      (∀ i, i < 2 →
        ((fun j => if j < 2 then RemoteResult.fault (.http 500)
          else RemoteResult.success 7) i).isFault = true) ∧
      (fun j => if j < 2 then RemoteResult.fault (.http 500)
        else RemoteResult.success 7) 2 = .success 7) ∧
    ((get_pubmed_count (Args.mk 3 10)
        (fun j => if j < 2 then RemoteResult.fault (.http 500)
          else RemoteResult.success 7) "rs123" 0 0).result = (7 : Int) ∧
      (get_pubmed_count (Args.mk 3 10)
        (fun j => if j < 2 then RemoteResult.fault (.http 500)
          else RemoteResult.success 7) "rs123" 0 0).calls = 2 + 1 ∧
      (get_pubmed_count (Args.mk 3 10)
        (fun j => if j < 2 then RemoteResult.fault (.http 500)
          else RemoteResult.success 7) "rs123" 0 0).sleeps =
        List.replicate 2 (Args.mk 3 10).retry_delay) :=
  ⟨⟨by decide, by decide, by decide, by decide⟩,
    resolve_retry_then_success (Args.mk 3 10) _ "rs123" 0 0 2 7
      (by decide) (by decide) (by decide) (by decide)⟩

/-- Claim C2: for every key, if all `max_attempts` attempts fail,
`get_pubmed_count` returns the sentinel -1 and logs exactly one
terminal error event, which names the key and the attempt count. -/
theorem resolve_exhausted_returns_sentinel (args : Args) (remote : Nat → RemoteResult)
    (query : String) (mr rd : Nat)
    (hmax : 1 ≤ args.max_retries)
    (hfail : ∀ i, i < args.max_retries → (remote i).isFault = true) :
    (get_pubmed_count args remote query mr rd).result = -1 ∧
    ((get_pubmed_count args remote query mr rd).log).filter isTerminal
      = [LogEvent.terminalError query args.max_retries] := by
  have h := pubmedAttempts_all_fail remote query args.max_retries args.retry_delay
    args.max_retries 0 (by simpa using hfail)
  simpa [get_pubmed_count] using h

/-- Witness for C2: with `max_retries = 2` and every attempt failing,
the result is -1 and exactly one terminal error names the key `rsX`
and the attempt count 2. -/
theorem resolve_exhausted_returns_sentinel_witness :
    (1 ≤ (Args.mk 2 5).max_retries ∧
      (∀ i, i < (Args.mk 2 5).max_retries →
        ((fun _ : Nat => RemoteResult.fault .other) i).isFault = true)) ∧
    ((get_pubmed_count (Args.mk 2 5) (fun _ => RemoteResult.fault .other)
        "rsX" 0 0).result = -1 ∧
      ((get_pubmed_count (Args.mk 2 5) (fun _ => RemoteResult.fault .other)
        "rsX" 0 0).log).filter isTerminal
        = [LogEvent.terminalError "rsX" (Args.mk 2 5).max_retries]) :=
  ⟨⟨by decide, by decide⟩,
    resolve_exhausted_returns_sentinel (Args.mk 2 5) _ "rsX" 0 0 (by decide) (by decide)⟩

/-- Claim C3 counterexample: no exception raised during a query can
both escape the inner per-attempt handlers and trigger the outer
`backoff` layer — the blanket `except Exception` catches every fault,
so the outer retry never re-executes the resolve body for query-time
faults. -/
theorem backoff_layer_unreachable_from_query_faults :
    ¬ ∃ e : PyExc, escapesInnerHandlers e = true ∧ backoffTriggers e = true := by
  rintro ⟨e, he, -⟩
  cases e <;> simp [escapesInnerHandlers, innerHandlerCatches, isException, isHTTPError] at he

/-- Claim C3 amended: the resolve body is wrapped by an
exponential-backoff decorator bounded at 5 tries and triggered by
`IOError`, `RuntimeError`, and `HTTPError`, but every exception raised
during a query is caught by the inner per-attempt handlers, so no
query-time fault ever reaches the outer layer. -/
theorem backoff_layer_configuration :
    backoffMaxTries = 5 ∧
    backoffTriggers PyExc.ioError = true ∧
    backoffTriggers PyExc.runtimeError = true ∧
    (∀ code, backoffTriggers (PyExc.httpError code) = true) ∧
    (∀ e, innerHandlerCatches e = true) := by
  refine ⟨rfl, rfl, rfl, fun _ => rfl, fun e => ?_⟩
  cases e <;> rfl

/-- Claim C10: `get_pubmed_count` ignores its `max_retries` and
`retry_delay` parameters — its behavior is fully determined by the
global `args`, so two calls with different explicit parameter values
but the same globals are identical. -/
theorem get_pubmed_count_ignores_params (args : Args) (remote : Nat → RemoteResult)
    (query : String) (m1 d1 m2 d2 : Nat) :
    get_pubmed_count args remote query m1 d1 = get_pubmed_count args remote query m2 d2 :=
  rfl

/-! ### The row-stream driver (`main`) -/

/-- Characters stripped by Python `str.strip()` with no argument:
space, tab, newline, carriage return, vertical tab, form feed. -/
def pySpace (c : Char) : Bool :=
  c = ' ' || c = '\t' || c = '\n' || c = '\r' || c = Char.ofNat 11 || c = Char.ofNat 12

/-- Python `line.strip()`: removes leading and trailing whitespace. -/
def pyStrip (s : String) : String :=
  String.mk (((s.data.dropWhile pySpace).reverse.dropWhile pySpace).reverse)

/-- Stripping only trailing whitespace (what claim C4 describes). -/
def pyStripTrailing (s : String) : String :=
  String.mk ((s.data.reverse.dropWhile pySpace).reverse)

/-- Python `str.split(sep)` for a single-character separator: splits at
every occurrence, keeping empty fields, and maps `""` to `[""]`. -/
def splitFields (delim : Char) : List Char → List (List Char)
  | [] => [[]]
  | c :: cs =>
      let rest := splitFields delim cs
      if c = delim then [] :: rest
      else
        match rest with
        | [] => [[c]]
        | f :: fs => (c :: f) :: fs

/-- The field list of one line: `line.strip().split(delim)`
(source lines 145 and 168). -/
def fieldsOf (delim : Char) (line : String) : List String :=
  (splitFields delim (pyStrip line).data).map String.mk

/-- The delimiter as the one-character string that the source
interpolates into its format strings. -/
def delimStr (d : Char) : String := String.mk [d]

/-- Python list indexing `xs[i]` over an `Int` index: non-negative
indices are direct, negative indices count from the end, and
out-of-range access is an `IndexError`, modelled as `none`. -/
def pyIndex (xs : List String) (i : Int) : Option String :=
  if 0 ≤ i then xs.get? i.toNat
  else if 0 ≤ (xs.length : Int) + i then xs.get? ((xs.length : Int) + i).toNat
  else none

/-- The preview loop (source lines 141-147): for each of the first
lines given, split the stripped line and, when
`column_number <= len(parts)`, collect `parts[column_number - 1]`.
Returns the collected preview samples and `some` error if the
extraction raises `IndexError` (possible for negative indices). -/
def previewPhase (delim : Char) (column_number : Int) :
    List String → List String × Option String
  | [] => ([], none)
  | line :: rest =>
      let parts := fieldsOf delim line
      if column_number ≤ (parts.length : Int) then
        match pyIndex parts (column_number - 1) with
        | none => ([], some "IndexError")
        | some item =>
            let r := previewPhase delim column_number rest
            (item :: r.1, r.2)
      else previewPhase delim column_number rest

/-- The output written for one data row (source line 171):
`line.strip() + delim + count + "\n"` where `count` is the resolver
result on `parts[column_number - 1]`. -/
def rowOutput (getCount : String → Int) (delim : Char) (column_number : Int)
    (line : String) : String :=
  pyStrip line ++ delimStr delim ++
    toString (getCount ((pyIndex (fieldsOf delim line) (column_number - 1)).getD "")) ++ "\n"

/-- The row-processing loop (source lines 167-172): each line is
stripped, split, the key extracted at `column_number - 1`, resolved,
and the augmented row written and flushed before the next line is
read.  An `IndexError` on extraction aborts the loop; rows already
flushed are kept. -/
def runRows (getCount : String → Int) (delim : Char) (column_number : Int) :
    List String → List String × Option String
  | [] => ([], none)
  | line :: rest =>
      match pyIndex (fieldsOf delim line) (column_number - 1) with
      | none => ([], some "IndexError")
      | some rsid =>
          let count := getCount rsid
          let r := runRows getCount delim column_number rest
          ((pyStrip line ++ delimStr delim ++ toString count ++ "\n") :: r.1, r.2)

/-- Python `"%02d"`-style two-digit rendering used by
`strftime("%m%d%y")`. -/
def twoDigit (n : Nat) : String := (if n < 10 then "0" else "") ++ toString n

/-- The run date in `MMDDYY` form (`datetime.now().strftime("%m%d%y")`,
source line 16). -/
def mmddyy (month day year : Nat) : String :=
  twoDigit month ++ twoDigit day ++ twoDigit (year % 100)

/-- The header line written to the output (source lines 157-158):
`header.strip() + delim + "pubmed_hits_" + date_today + "\n"`. -/
def headerOut (delim : Char) (date_today : String) (line : String) : String :=
  pyStrip line ++ delimStr delim ++ "pubmed_hits_" ++ date_today ++ "\n"

/-- The observable outcome of one driver run: the chunks written (and
flushed) to the output file in order, the preview samples logged, and
the error logged by the top-level handler, if any. -/
structure DriverResult where
  written : List String
  preview : List String
  error : Option String
deriving DecidableEq

/-- Model of the `try` body of `main` (source lines 137-177) on an
input whose lines are given as a list: preview the first five lines,
rewind, write the augmented header, skip the header, then process each
remaining row.  Any exception is caught by the top-level handler,
which logs it and stops; everything already written is kept.  On an
empty input, `next(infile)` after the header read raises
`StopIteration` (itself caught at the top level). -/
def mainRun (getCount : String → Int) (delim : Char) (column_number : Int)
    (date_today : String) (lines : List String) : DriverResult :=
  let pv := previewPhase delim column_number (lines.take 5)
  match pv.2 with
  | some e => { written := [], preview := [], error := some e }
  | none =>
      match lines with
      | [] =>
          { written := [headerOut delim date_today ""], preview := pv.1,
            error := some "StopIteration" }
      | first :: rows =>
          let rr := runRows getCount delim column_number rows
          { written := headerOut delim date_today first :: rr.1, preview := pv.1,
            error := rr.2 }

/-! ### Helper lemmas for the driver -/

lemma pyIndex_pos_isSome (xs : List String) (i : Int) (h0 : 0 ≤ i)
    (hlt : i < (xs.length : Int)) : (pyIndex xs i).isSome = true := by
  have hn : i.toNat < xs.length := by omega
  simp only [pyIndex, if_pos h0, List.get?_eq_get hn, Option.isSome_some]

lemma pyIndex_neg_isSome (xs : List String) (i : Int) (hneg : i < 0)
    (h : 0 ≤ (xs.length : Int) + i) : (pyIndex xs i).isSome = true := by
  have h0 : ¬ (0 ≤ i) := by omega
  have hn : ((xs.length : Int) + i).toNat < xs.length := by omega
  simp only [pyIndex, if_neg h0, if_pos h, List.get?_eq_get hn, Option.isSome_some]

lemma pyIndex_pos_none (xs : List String) (i : Int) (h0 : 0 ≤ i)
    (h : (xs.length : Int) ≤ i) : pyIndex xs i = none := by
  have hn : xs.length ≤ i.toNat := by omega
  simp only [pyIndex, if_pos h0]
  exact List.get?_eq_none.mpr hn

lemma runRows_total (getCount : String → Int) (delim : Char) (col : Int)
    (rows : List String)
    (hall : ∀ r ∈ rows, (pyIndex (fieldsOf delim r) (col - 1)).isSome = true) :
    runRows getCount delim col rows = (rows.map (rowOutput getCount delim col), none) := by
  induction rows with
  | nil => rfl
  | cons r rs ih =>
      obtain ⟨v, hv⟩ := Option.isSome_iff_exists.mp (hall r (by simp))
      have hrec := ih (fun x hx => hall x (by simp [hx]))
      simp [runRows, hv, hrec, rowOutput]

lemma runRows_append_abort (getCount : String → Int) (delim : Char) (col : Int)
    (pre : List String) (bad : String) (rest : List String)
    (hpre : ∀ r ∈ pre, (pyIndex (fieldsOf delim r) (col - 1)).isSome = true)
    (hbad : pyIndex (fieldsOf delim bad) (col - 1) = none) :
    runRows getCount delim col (pre ++ bad :: rest) =
      (pre.map (rowOutput getCount delim col), some "IndexError") := by
  induction pre with
  | nil => simp [runRows, hbad]
  | cons p ps ih =>
      obtain ⟨v, hv⟩ := Option.isSome_iff_exists.mp (hpre p (by simp))
      have hrec := ih (fun x hx => hpre x (by simp [hx]))
      simp [runRows, hv, hrec, rowOutput]

lemma previewPhase_pos (delim : Char) (col : Int) (ls : List String) (hcol : 1 ≤ col) :
    previewPhase delim col ls =
      (ls.filterMap (fun line =>
        if col ≤ ((fieldsOf delim line).length : Int)
        then some ((pyIndex (fieldsOf delim line) (col - 1)).getD "")
        else none), none) := by
  induction ls with
  | nil => rfl
  | cons l ls ih =>
      by_cases hg : col ≤ ((fieldsOf delim l).length : Int)
      · have hs := pyIndex_pos_isSome (fieldsOf delim l) (col - 1) (by omega) (by omega)
        obtain ⟨v, hv⟩ := Option.isSome_iff_exists.mp hs
        simp [previewPhase, hg, hv, ih]
      · simp [previewPhase, hg, ih]

lemma previewPhase_neg_none (delim : Char) (col : Int) (ls : List String)
    (hcol : col ≤ 0)
    (hall : ∀ r ∈ ls, 1 - col ≤ ((fieldsOf delim r).length : Int)) :
    (previewPhase delim col ls).2 = none := by
  induction ls with
  | nil => rfl
  | cons l ls ih =>
      have hl := hall l (by simp)
      have hg : col ≤ ((fieldsOf delim l).length : Int) := by omega
      have hs := pyIndex_neg_isSome (fieldsOf delim l) (col - 1) (by omega) (by omega)
      obtain ⟨v, hv⟩ := Option.isSome_iff_exists.mp hs
      have hrec := ih (fun x hx => hall x (by simp [hx]))
      simp [previewPhase, hg, hv, hrec]

lemma mainRun_cons (getCount : String → Int) (delim : Char) (col : Int)
    (date : String) (first : String) (rows : List String)
    (hpv : (previewPhase delim col ((first :: rows).take 5)).2 = none) :
    mainRun getCount delim col date (first :: rows) =
      { written := headerOut delim date first :: (runRows getCount delim col rows).1,
        preview := (previewPhase delim col ((first :: rows).take 5)).1,
        error := (runRows getCount delim col rows).2 } := by
  have hpv2 : (previewPhase delim col (first :: rows.take 4)).2 = none := by
    simpa using hpv
  simp [mainRun, hpv2]

lemma mainRun_written_head (getCount : String → Int) (delim : Char) (col : Int)
    (date : String) (lines : List String) (hcol : 1 ≤ col) :
    (mainRun getCount delim col date lines).written.head? =
      some (headerOut delim date (lines.headD "")) := by
  cases lines with
  | nil => simp [mainRun, previewPhase]
  | cons a as =>
      have hpv := previewPhase_pos delim col (a :: as.take 4) hcol
      simp [mainRun, hpv]

/-! ### Claim theorems for the driver -/

/-- Claim C4 counterexample: on the data row `" a,b"` (leading space),
the row phase writes `"a,b,5\n"` — the leading space is removed — while
the claimed trailing-only trim would keep it, so the claim that only
trailing whitespace is stripped is false. -/
theorem row_phase_not_trailing_only :
    (runRows (fun _ => 5) ',' 1 [" a,b"]).1 = ["a,b,5\n"] ∧
    pyStripTrailing " a,b" ++ delimStr ',' ++ toString ((5 : Int)) ++ "\n" = " a,b,5\n" ∧
    ("a,b,5\n" : String) ≠ " a,b,5\n" := by
  refine ⟨?_, ?_, ?_⟩ <;> decide

/-- Claim C4 amended: for every data row with at least `columnIndex`
fields (`columnIndex ≥ 1`), the row phase strips leading and trailing
whitespace from the line, splits it by the delimiter, extracts the
field at `columnIndex - 1`, calls the resolver on it, and writes the
stripped line followed by the delimiter, the result, and a newline,
committing each row before the next is read; no row aborts the loop. -/
theorem row_phase_output (getCount : String → Int) (delim : Char) (col : Int)
    (rows : List String) (hcol : 1 ≤ col)
    (hall : ∀ r ∈ rows, col ≤ ((fieldsOf delim r).length : Int)) :
    runRows getCount delim col rows = (rows.map (rowOutput getCount delim col), none) :=
  runRows_total getCount delim col rows (fun r hr =>
    pyIndex_pos_isSome (fieldsOf delim r) (col - 1) (by omega)
      (by have := hall r hr; omega))

/-- Witness for the amended C4: one well-formed row, column 1. -/
theorem row_phase_output_witness :
    ((1 : Int) ≤ 1 ∧ (∀ r ∈ ["a,b"], (1 : Int) ≤ ((fieldsOf ',' r).length : Int))) ∧
    runRows (fun _ => 5) ',' 1 ["a,b"] = (["a,b"].map (rowOutput (fun _ => 5) ',' 1), none) :=
  ⟨⟨by decide, by decide⟩,
    row_phase_output (fun _ => 5) ',' 1 ["a,b"] (by decide) (by decide)⟩

/-- Claim C5 counterexample: with input header `" id \n"` the first
output line is `"id,pubmed_hits_010203\n"` — the header is stripped,
not read verbatim — which differs from the claimed verbatim form
`" id ,pubmed_hits_010203\n"`. -/
theorem header_not_verbatim :
    (mainRun (fun _ => 0) ',' 1 "010203" [" id \n", "a\n"]).written.head? =
      some "id,pubmed_hits_010203\n" ∧
    ("id,pubmed_hits_010203\n" : String) ≠ " id ,pubmed_hits_010203\n" := by
  refine ⟨?_, ?_⟩ <;> decide

/-- Claim C5 amended: for every input file (and `columnIndex ≥ 1` so
the preview cannot abort first), the first output line equals the
input's first line stripped of leading and trailing whitespace, with
exactly one appended field consisting of the delimiter followed by
`pubmed_hits_` and the run date in `MMDDYY` form, terminated by a
newline. -/
theorem header_line_stripped (getCount : String → Int) (delim : Char) (col : Int)
    (m d y : Nat) (lines : List String) (hcol : 1 ≤ col) :
    (mainRun getCount delim col (mmddyy m d y) lines).written.head? =
      some (pyStrip (lines.headD "") ++ delimStr delim ++ "pubmed_hits_" ++
        mmddyy m d y ++ "\n") :=
  mainRun_written_head getCount delim col (mmddyy m d y) lines hcol

/-- Witness for the amended C5: header `" id \n"`, date 01/02/03. -/
theorem header_line_stripped_witness :
    (1 : Int) ≤ 1 ∧
    (mainRun (fun _ => 0) ',' 1 (mmddyy 1 2 3) [" id \n", "a\n"]).written.head? =
      some (pyStrip ([" id \n", "a\n"].headD "") ++ delimStr ',' ++ "pubmed_hits_" ++
        mmddyy 1 2 3 ++ "\n") :=
  ⟨by decide, header_line_stripped (fun _ => 0) ',' 1 1 2 3 [" id \n", "a\n"] (by decide)⟩

/-- Claim C6: for `columnIndex ≥ 1`, the preview phase reads up to 5
lines, splits each by the delimiter, logs the field at `columnIndex`
exactly for those lines with at least `columnIndex` fields, silently
skipping the others, and the input is then reset: the header phase
still reads the first line of the file. -/
theorem preview_phase_guarded (getCount : String → Int) (delim : Char) (col : Int)
    (date : String) (lines : List String) (hcol : 1 ≤ col) :
    (mainRun getCount delim col date lines).preview =
      (lines.take 5).filterMap (fun line =>
        if col ≤ ((fieldsOf delim line).length : Int)
        then some ((pyIndex (fieldsOf delim line) (col - 1)).getD "")
        else none) ∧
    (mainRun getCount delim col date lines).written.head? =
      some (headerOut delim date (lines.headD "")) := by
  refine ⟨?_, mainRun_written_head getCount delim col date lines hcol⟩
  cases lines with
  | nil => simp [mainRun, previewPhase]
  | cons a as =>
      have hpv := previewPhase_pos delim col (a :: as.take 4) hcol
      simp [mainRun, hpv]

/-- Witness for C6: six lines (only five previewed), the short row
`"x"` silently skipped for column 2. -/
theorem preview_phase_guarded_witness :
    (1 : Int) ≤ 2 ∧
    ((mainRun (fun _ => 0) ',' 2 "D" ["h,h", "a,b", "x", "c,d", "e,f", "g,h"]).preview =
      (["h,h", "a,b", "x", "c,d", "e,f", "g,h"].take 5).filterMap (fun line =>
        if (2 : Int) ≤ ((fieldsOf ',' line).length : Int)
        then some ((pyIndex (fieldsOf ',' line) (2 - 1)).getD "")
        else none) ∧
    (mainRun (fun _ => 0) ',' 2 "D" ["h,h", "a,b", "x", "c,d", "e,f", "g,h"]).written.head? =
      some (headerOut ',' "D" (["h,h", "a,b", "x", "c,d", "e,f", "g,h"].headD ""))) :=
  ⟨by decide,
    preview_phase_guarded (fun _ => 0) ',' 2 "D"
      ["h,h", "a,b", "x", "c,d", "e,f", "g,h"] (by decide)⟩

/-- Claim C7: a key that exhausts all retries is fully absorbed inside
the resolver: the driver writes the row with the sentinel -1 and
continues, processing every row with no abort. -/
theorem exhausted_key_does_not_abort (args : Args) (remote : String → Nat → RemoteResult)
    (delim : Char) (col : Int) (date first : String) (rows : List String)
    (hcol : 1 ≤ col)
    (hall : ∀ r ∈ rows, col ≤ ((fieldsOf delim r).length : Int)) :
    (mainRun (fun q => (get_pubmed_count args (remote q) q args.max_retries
        args.retry_delay).result) delim col date (first :: rows)).error = none ∧
    (mainRun (fun q => (get_pubmed_count args (remote q) q args.max_retries
        args.retry_delay).result) delim col date (first :: rows)).written.length =
      rows.length + 1 ∧
    (∀ r ∈ rows,
      (∀ i, i < args.max_retries →
        ((remote ((pyIndex (fieldsOf delim r) (col - 1)).getD "")) i).isFault = true) →
      (pyStrip r ++ delimStr delim ++ "-1" ++ "\n") ∈
        (mainRun (fun q => (get_pubmed_count args (remote q) q args.max_retries
          args.retry_delay).result) delim col date (first :: rows)).written) := by
  have hpv : (previewPhase delim col ((first :: rows).take 5)).2 = none := by
    rw [previewPhase_pos delim col ((first :: rows).take 5) hcol]
  have hrr := runRows_total (fun q => (get_pubmed_count args (remote q) q args.max_retries
      args.retry_delay).result) delim col rows (fun r hr =>
    pyIndex_pos_isSome (fieldsOf delim r) (col - 1) (by omega)
      (by have := hall r hr; omega))
  rw [mainRun_cons _ delim col date first rows hpv, hrr]
  refine ⟨rfl, by simp, ?_⟩
  intro r hr hexh
  have hres : (get_pubmed_count args
      (remote ((pyIndex (fieldsOf delim r) (col - 1)).getD ""))
      ((pyIndex (fieldsOf delim r) (col - 1)).getD "")
      args.max_retries args.retry_delay).result = -1 :=
    (pubmedAttempts_all_fail _ _ args.max_retries args.retry_delay args.max_retries 0
      (by simpa using hexh)).1
  have hmem : rowOutput (fun q => (get_pubmed_count args (remote q) q args.max_retries
      args.retry_delay).result) delim col r ∈
      rows.map (rowOutput (fun q => (get_pubmed_count args (remote q) q args.max_retries
        args.retry_delay).result) delim col) := List.mem_map_of_mem _ hr
  have hout : rowOutput (fun q => (get_pubmed_count args (remote q) q args.max_retries
      args.retry_delay).result) delim col r =
      pyStrip r ++ delimStr delim ++ "-1" ++ "\n" := by
    simp only [rowOutput, hres]
    rfl
  simp only [List.mem_cons]
  right
  rw [← hout]
  exact hmem

/-- Witness for C7: one row whose key fails both attempts; the run
does not abort and the row is written with -1. -/
theorem exhausted_key_does_not_abort_witness :
    ((1 : Int) ≤ 1 ∧ (∀ r ∈ ["a,b"], (1 : Int) ≤ ((fieldsOf ',' r).length : Int))) ∧
    ((mainRun (fun q => (get_pubmed_count (Args.mk 2 0)
        ((fun _ _ => RemoteResult.fault .other) q) q (Args.mk 2 0).max_retries
        (Args.mk 2 0).retry_delay).result) ',' 1 "D" ("h" :: ["a,b"])).error = none ∧
    (mainRun (fun q => (get_pubmed_count (Args.mk 2 0)
        ((fun _ _ => RemoteResult.fault .other) q) q (Args.mk 2 0).max_retries
        (Args.mk 2 0).retry_delay).result) ',' 1 "D" ("h" :: ["a,b"])).written.length =
      ["a,b"].length + 1 ∧
    (∀ r ∈ ["a,b"],
      (∀ i, i < (Args.mk 2 0).max_retries →
        (((fun _ _ => RemoteResult.fault .other)
          ((pyIndex (fieldsOf ',' r) (1 - 1)).getD "") : Nat → RemoteResult) i).isFault
            = true) →
      (pyStrip r ++ delimStr ',' ++ "-1" ++ "\n") ∈
        (mainRun (fun q => (get_pubmed_count (Args.mk 2 0)
          ((fun _ _ => RemoteResult.fault .other) q) q (Args.mk 2 0).max_retries
          (Args.mk 2 0).retry_delay).result) ',' 1 "D" ("h" :: ["a,b"])).written)) :=
  ⟨⟨by decide, by decide⟩,
    exhausted_key_does_not_abort (Args.mk 2 0) (fun _ _ => RemoteResult.fault .other)
      ',' 1 "D" "h" ["a,b"] (by decide) (by decide)⟩

/-- Claim C8: for `columnIndex ≥ 2`, a data row with fewer fields than
`columnIndex` raises an unguarded `IndexError` in the row phase; it
propagates to the top-level handler, which logs it and aborts the run,
and exactly the header plus the rows flushed before the bad row remain
written. -/
theorem malformed_row_aborts_run (getCount : String → Int) (delim : Char) (col : Int)
    (date first bad : String) (pre rest : List String)
    (hcol : 2 ≤ col)
    (hpre : ∀ r ∈ pre, col ≤ ((fieldsOf delim r).length : Int))
    (hbad : ((fieldsOf delim bad).length : Int) < col) :
    (mainRun getCount delim col date (first :: (pre ++ bad :: rest))).error =
      some "IndexError" ∧
    (mainRun getCount delim col date (first :: (pre ++ bad :: rest))).written =
      headerOut delim date first :: pre.map (rowOutput getCount delim col) := by
  have hpv : (previewPhase delim col ((first :: (pre ++ bad :: rest)).take 5)).2 = none := by
    rw [previewPhase_pos delim col _ (by omega)]
  have hrr := runRows_append_abort getCount delim col pre bad rest
    (fun r hr => pyIndex_pos_isSome (fieldsOf delim r) (col - 1) (by omega)
      (by have := hpre r hr; omega))
    (pyIndex_pos_none (fieldsOf delim bad) (col - 1) (by omega) (by omega))
  rw [mainRun_cons getCount delim col date first _ hpv, hrr]
  exact ⟨rfl, rfl⟩

/-- Witness for C8: column 2, one good row, then the one-field row
`"c"`: the run aborts with `IndexError` after the header and the good
row. -/
theorem malformed_row_aborts_run_witness :
    ((2 : Int) ≤ 2 ∧ (∀ r ∈ ["a,b"], (2 : Int) ≤ ((fieldsOf ',' r).length : Int)) ∧
      ((fieldsOf ',' "c").length : Int) < 2) ∧
    ((mainRun (fun _ => 3) ',' 2 "D" ("h1,h2" :: (["a,b"] ++ "c" :: ["d,e"]))).error =
      some "IndexError" ∧
    (mainRun (fun _ => 3) ',' 2 "D" ("h1,h2" :: (["a,b"] ++ "c" :: ["d,e"]))).written =
      headerOut ',' "D" "h1,h2" :: ["a,b"].map (rowOutput (fun _ => 3) ',' 2)) :=
  ⟨⟨by decide, by decide, by decide⟩,
    malformed_row_aborts_run (fun _ => 3) ',' 2 "D" "h1,h2" "c" ["a,b"] ["d,e"]
      (by decide) (by decide) (by decide)⟩

/-- Claim C9 counterexample: with `columnIndex = -1` and the non-empty
one-field row `"a"`, both the preview phase and the row phase raise an
out-of-bounds `IndexError` (`parts[-2]` on a one-element list), so the
claim that no out-of-bounds fault occurs for any `columnIndex ≤ 0` is
false. -/
theorem negative_column_can_still_fault :
    previewPhase ',' (-1) ["a"] = ([], some "IndexError") ∧
    (runRows (fun _ => 0) ',' (-1) ["a"]).2 = some "IndexError" := by
  refine ⟨?_, ?_⟩ <;> decide

/-- Claim C9 amended: for `columnIndex ≤ 0`, on rows with at least
`1 - columnIndex` fields neither the preview phase nor the row phase
raises an out-of-bounds fault: Python negative indexing makes
`parts[columnIndex - 1]` extract the field `1 - columnIndex` positions
from the end (`columnIndex = 0` yields the last field), silently
violating the 1-based column contract. -/
theorem negative_column_wraps (getCount : String → Int) (delim : Char) (col : Int)
    (rows : List String) (hcol : col ≤ 0)
    (hall : ∀ r ∈ rows, 1 - col ≤ ((fieldsOf delim r).length : Int)) :
    (previewPhase delim col rows).2 = none ∧
    (runRows getCount delim col rows).2 = none ∧
    (∀ r ∈ rows, pyIndex (fieldsOf delim r) (col - 1) =
      (fieldsOf delim r).get? ((fieldsOf delim r).length - (1 - col).toNat)) := by
  refine ⟨previewPhase_neg_none delim col rows hcol hall, ?_, ?_⟩
  · rw [runRows_total getCount delim col rows (fun r hr =>
      pyIndex_neg_isSome (fieldsOf delim r) (col - 1) (by omega)
        (by have := hall r hr; omega))]
  · intro r hr
    have hl := hall r hr
    have h0 : ¬ (0 ≤ col - 1) := by omega
    have hge : 0 ≤ ((fieldsOf delim r).length : Int) + (col - 1) := by omega
    have hidx : (((fieldsOf delim r).length : Int) + (col - 1)).toNat =
        (fieldsOf delim r).length - (1 - col).toNat := by omega
    simp [pyIndex, h0, hge, hidx]

/-- Witness for the amended C9: `columnIndex = 0` on the two-field row
`"a,b"`: no fault in either phase, and the extracted field is the last
one. -/
theorem negative_column_wraps_witness :
    ((0 : Int) ≤ 0 ∧ (∀ r ∈ ["a,b"], (1 : Int) - 0 ≤ ((fieldsOf ',' r).length : Int))) ∧
    ((previewPhase ',' 0 ["a,b"]).2 = none ∧
    (runRows (fun _ => 0) ',' 0 ["a,b"]).2 = none ∧
    (∀ r ∈ ["a,b"], pyIndex (fieldsOf ',' r) (0 - 1) =
      (fieldsOf ',' r).get? ((fieldsOf ',' r).length - ((1 : Int) - 0).toNat))) :=
  ⟨⟨by decide, by decide⟩,
    negative_column_wraps (fun _ => 0) ',' 0 ["a,b"] (by decide) (by decide)⟩

end PubCounter
